import Mathlib

/-!
Shallow embedding of the causal-graph analytics engine of the
phantom-metal-taste repository.  The analytics operations of
AnalyticsService and InitiativeService are AQL queries executed by
ArangoDB, so the embedding models the documents, the edge collections
and the AQL constructs the queries use: bounded graph traversals with
the default uniqueness options (edges unique along a path, vertices
free to repeat, one emission per walk), DOCUMENT lookup returning null
for an unknown key, AVG ignoring null entries, division by zero
yielding null, null coerced to 0 by arithmetic operators, the
truthiness of the or-operator used for edge.strength, and MIN over a
two-element array.  Numbers are modelled by the rationals.
-/

namespace PMT

/-- A vertex document.  Documents are schemaless in ArangoDB; the
fields below are the ones the analytics queries read.  A missing
attribute is `none` (AQL null). -/
structure Doc where
  coll : String
  key : String
  vtype : Option String
  name : Option String
  value : Option ℚ
  target : Option ℚ
  department : Option String
  wellnessScore : Option ℚ
  engagementLevel : Option ℚ
  status : Option String
deriving DecidableEq, Repr

/-- The `_id` of a document is collection name, slash, key. -/
def Doc.id (d : Doc) : String := d.coll ++ "/" ++ d.key

/-- An edge document (member of one of the edge collections). -/
structure GEdge where
  coll : String
  key : String
  src : String
  dst : String
  strength : Option ℚ
deriving DecidableEq, Repr

/-- The database: vertex documents and edge documents. -/
structure Store where
  docs : List Doc
  edges : List GEdge
deriving DecidableEq, Repr

/-- AQL DOCUMENT(id): look a vertex up by its full `_id`. -/
def getDocById (S : Store) (vid : String) : Option Doc :=
  S.docs.find? (fun d => d.id == vid)

/-- AQL DOCUMENT('coll', key): look a vertex up by collection and key. -/
def docWith (S : Store) (c k : String) : Option Doc :=
  S.docs.find? (fun d => d.coll == c && d.key == k)

/-- Boolean membership of a string in a list of strings. -/
def keyMem (k : String) : List String → Bool
  | [] => false
  | x :: xs => (x == k) || keyMem k xs

/-- Outbound adjacency over a set of edge collections: the edges whose
`_from` is the given vertex, paired with their `_to`. -/
def outAdj (es : List GEdge) (colls : List String) (v : String) :
    List (GEdge × String) :=
  (es.filter (fun e => keyMem e.coll colls && e.src == v)).map
    (fun e => (e, e.dst))

/-- ANY-direction adjacency over a set of edge collections: each
incident edge paired with its opposite endpoint. -/
def anyAdj (es : List GEdge) (colls : List String) (v : String) :
    List (GEdge × String) :=
  es.filterMap (fun e =>
    if keyMem e.coll colls then
      if e.src == v then some (e, e.dst)
      else if e.dst == v then some (e, e.src)
      else none
    else none)

/-- All traversal walks of length 1..fuel from a vertex, under the
ArangoDB default uniqueness options: an edge may not repeat within one
walk (uniqueEdges: path, tracked by edge key), vertices may repeat and
each walk emits its own endpoint.  A walk is returned as its list of
edges together with its final vertex. -/
def walks (adj : String → List (GEdge × String)) :
    ℕ → List String → String → List (List GEdge × String)
  | 0, _, _ => []
  | n + 1, used, v =>
    ((adj v).filter (fun p => !(keyMem p.1.key used))).flatMap
      (fun p => ([p.1], p.2) ::
        (walks adj n (p.1.key :: used) p.2).map (fun q => (p.1 :: q.1, q.2)))

/-- Emissions of a FOR v IN 1..maxD traversal started on an optional
start vertex (AQL: traversing from null emits nothing), resolving each
emitted vertex id to its document (null when the edge dangles).  Every
depth window in the source starts at hop 1 and a walk has at least one
edge, so only the upper bound is needed. -/
def reachDocsFrom (S : Store) (colls : List String) (maxD : ℕ)
    (st : Option String) : List (Option Doc) :=
  match st with
  | none => []
  | some v => (walks (outAdj S.edges colls) maxD [] v).map
      (fun p => getDocById S p.2)

def causesC : List String := ["causes"]
def measuresC : List String := ["measures"]

/-- The edge collections of the named graph causal_graph. -/
def graphColls : List String :=
  ["causes", "participates_in", "measures", "belongs_to", "influences"]

/-- AQL v.type == 't' on a possibly null vertex. -/
def optTypeIs (t : String) (od : Option Doc) : Bool :=
  match od with
  | some d => d.vtype == some t
  | none => false

/-- The intended list of calculateIntentionRealityGap:
FOR v IN 1..1 OUTBOUND initiative causes FILTER v.type == 'intended'. -/
def intendedOf (S : Store) (st : Option String) : List (Option Doc) :=
  (reachDocsFrom S causesC 1 st).filter (optTypeIs "intended")

/-- The actual list of calculateIntentionRealityGap:
FOR v IN 1..2 OUTBOUND initiative causes
FILTER v.type IN ['unintended', 'emergent']. -/
def actualOf (S : Store) (st : Option String) : List (Option Doc) :=
  (reachDocsFrom S causesC 2 st).filter
    (fun od => optTypeIs "unintended" od || optTypeIs "emergent" od)

/-- The metrics list of calculateIntentionRealityGap:
FOR v IN 1..1 OUTBOUND initiative measures. -/
def gapMetricsOf (S : Store) (st : Option String) : List (Option Doc) :=
  reachDocsFrom S measuresC 1 st

/-- The inner RETURN ABS(m.value - m.target) / m.target, applied after
FILTER m.target != null AND m.value != null; division by zero yields
null. -/
def metricGapExpr (od : Option Doc) : Option ℚ :=
  match od with
  | some d =>
    match d.value, d.target with
    | some v, some t => if t = 0 then none else some (|v - t| / t)
    | _, _ => none
  | none => none

/-- The FILTER m.target != null AND m.value != null test. -/
def hasValueTarget (od : Option Doc) : Bool :=
  match od with
  | some d => d.target.isSome && d.value.isSome
  | none => false

/-- AQL AVG: null entries are ignored; an empty or all-null array
averages to null. -/
def aqlAvg (xs : List (Option ℚ)) : Option ℚ :=
  let nums := xs.filterMap id
  if nums.length = 0 then none else some (nums.sum / (nums.length : ℚ))

/-- AQL arithmetic coerces null to 0. -/
def numOf (x : Option ℚ) : ℚ := x.getD 0

/-- LET avgMetricGap = LENGTH(metrics) > 0 ? AVG(...) : 0. -/
def avgMetricGapOf (S : Store) (st : Option String) : Option ℚ :=
  let ms := gapMetricsOf S st
  if 0 < ms.length then aqlAvg ((ms.filter hasValueTarget).map metricGapExpr)
  else some 0

/-- LET gapScore = LENGTH(actual) * 10 + avgMetricGap * 50 +
(LENGTH(intended) == 0 ? 25 : 0), before the MIN clamp. -/
def rawGapOf (S : Store) (st : Option String) : ℚ :=
  ((actualOf S st).length : ℚ) * 10 + numOf (avgMetricGapOf S st) * 50 +
    (if (intendedOf S st).length = 0 then 25 else 0)

/-- The record returned by calculateIntentionRealityGap; severityWord
is the classification word placed into the analysis text by CONCAT
(computed, as in the source, from the unclamped score). -/
structure GapResult where
  initiativeKey : Option String
  initiativeName : Option String
  actualOutcomes : List (Option Doc)
  gapScore : ℚ
  unintendedConsequences : List (Option Doc)
  severityWord : String
deriving DecidableEq, Repr

/-- AnalyticsService.calculateIntentionRealityGap.  The query always
yields exactly one row, so the results[0]-or-null of the source is
always that row. -/
def calculateIntentionRealityGap (S : Store) (initiativeId : String) :
    Option GapResult :=
  let i := docWith S "initiatives" initiativeId
  let st := i.map Doc.id
  let act := actualOf S st
  let raw := rawGapOf S st
  some ⟨i.map (fun d => d.key), i.bind (fun d => d.name), act,
    min raw 100, act,
    if raw > 75 then "severe"
    else if raw > 50 then "significant" else "moderate"⟩

/-- Effective strength of an edge in traceCausalPath:
edge.strength || 0.5, with AQL truthiness (null and 0 are falsy). -/
def effStrength (e : GEdge) : ℚ :=
  match e.strength with
  | some s => if s = 0 then 1/2 else s
  | none => 1/2

/-- totalStrength: PRODUCT(FOR edge IN p.edges RETURN
edge.strength || 0.5). -/
def pathStrength (es : List GEdge) : ℚ := (es.map effStrength).prod

/-- The walks reported by traceCausalPath: OUTBOUND causes walks of
length 1..maxDepth from DOCUMENT(fromId), kept when the final vertex
has `_id` equal to toId (a null vertex never passes the `_id`
comparison). -/
def tracePaths (S : Store) (fromId toId : String) (maxDepth : ℕ) :
    List (List GEdge × String) :=
  match getDocById S fromId with
  | none => []
  | some s0 =>
    (walks (outAdj S.edges causesC) maxDepth [] s0.id).filter
      (fun p => p.2 == toId && (getDocById S p.2).isSome)

/-- One row of traceCausalPath. -/
structure PathRec where
  fromId : String
  toId : String
  nodes : List String
  totalStrength : ℚ
  pLen : ℕ
deriving DecidableEq, Repr

/-- The row built for one walk: p.vertices is the start followed by
the target of every edge, LENGTH(p.vertices) is edge count plus one. -/
def mkPathRec (fromId toId startId : String) (p : List GEdge × String) :
    PathRec :=
  ⟨fromId, toId, startId :: p.1.map (fun e => e.dst), pathStrength p.1,
    p.1.length + 1⟩

/-- AnalyticsService.traceCausalPath. -/
def traceCausalPath (S : Store) (fromId toId : String) (maxDepth : ℕ) :
    List PathRec :=
  match getDocById S fromId with
  | none => []
  | some s0 => (tracePaths S fromId toId maxDepth).map
      (mkPathRec fromId toId s0.id)

/-- AQL x > c when x may be null: null compares below every number. -/
def aqlGtNum (x : Option ℚ) (c : ℚ) : Bool :=
  match x with
  | some v => decide (c < v)
  | none => false

/-- One row of findGameableMetrics. -/
structure GameableRec where
  metric : Doc
  gap : Option ℚ
  suspicionLevel : String
deriving DecidableEq, Repr

/-- LET gap = ABS(metric.value - metric.target) / metric.target for a
metric that passed FILTER metric.target != null AND
metric.value != null (null when the target is 0). -/
def metricRowGap (d : Doc) : Option ℚ :=
  match d.value, d.target with
  | some v, some t => if t = 0 then none else some (|v - t| / t)
  | _, _ => none

/-- The suspicionLevel ternary of findGameableMetrics. -/
def suspicionOf (g : Option ℚ) : String :=
  if aqlGtNum g (9/10) then "EXTREME"
  else if aqlGtNum g (7/10) then "HIGH" else "MODERATE"

/-- The rows of findGameableMetrics before sorting: metrics-collection
documents with value and target set (the FILTER of the query) whose
gap exceeds the threshold (a null gap, from target 0, never exceeds
it). -/
def gameableRows (S : Store) (threshold : ℚ) : List Doc :=
  ((S.docs.filter
        (fun d => d.coll == "metrics" && d.target.isSome && d.value.isSome)).filter
    (fun d => aqlGtNum (metricRowGap d) threshold))

/-- AnalyticsService.findGameableMetrics: the retained rows, sorted
descending by gap (SORT gap DESC) and classified. -/
def findGameableMetrics (S : Store) (threshold : ℚ) : List GameableRec :=
  ((gameableRows S threshold).insertionSort
      (fun a b => numOf (metricRowGap b) ≤ numOf (metricRowGap a))).map
    (fun d => ⟨d, metricRowGap d, suspicionOf (metricRowGap d)⟩)

/-- One row of detectMetricTheater. -/
structure TheaterRec where
  metric : Doc
  theaterScore : ℚ
deriving DecidableEq, Repr

/-- AQL v._id LIKE 'initiatives/%' on a possibly null vertex. -/
def aqlLikeInit (od : Option Doc) : Bool :=
  match od with
  | some d => "initiatives/".toList.isPrefixOf d.id.toList
  | none => false

/-- The documents emitted by FOR v IN 1..2 ANY metric GRAPH
'causal_graph'. -/
def theaterReach (S : Store) (m : Doc) : List (Option Doc) :=
  (walks (anyAdj S.edges graphColls) 2 [] m.id).map
    (fun p => getDocById S p.2)

/-- LET linkedInitiatives = the reach filtered by
v._id LIKE 'initiatives/%'. -/
def linkedInitiativesOf (S : Store) (m : Doc) : List (Option Doc) :=
  (theaterReach S m).filter aqlLikeInit

/-- AnalyticsService.detectMetricTheater. -/
def detectMetricTheater (S : Store) : List TheaterRec :=
  ((S.docs.filter (fun d => d.coll == "metrics")).filter
      (fun m => (linkedInitiativesOf S m).length == 0)).map
    (fun m => ⟨m, 100⟩)

/-- The result row of calculateDepartmentSynergy. -/
structure SynergyResult where
  department : Option Doc
  employeeCount : ℕ
  avgWellness : Option ℚ
  avgEngagement : Option ℚ
  successRate : ℚ
  synergyScore : ℚ
  synergyGrade : String
deriving DecidableEq, Repr

/-- AnalyticsService.calculateDepartmentSynergy.  dept.name of a null
department is null, and AQL null == null holds, so the employee and
initiative filters compare optional strings. -/
def calculateDepartmentSynergy (S : Store) (departmentId : String) :
    Option SynergyResult :=
  let dOpt := docWith S "departments" departmentId
  let dName := dOpt.bind (fun d => d.name)
  let emps := S.docs.filter
    (fun d => d.coll == "employees" && d.department == dName)
  let inits := S.docs.filter
    (fun d => d.coll == "initiatives" && d.department == dName)
  let aw := aqlAvg (emps.map (fun e => e.wellnessScore))
  let ae := aqlAvg (emps.map (fun e => e.engagementLevel))
  let comp := (inits.filter (fun d => d.status == some "completed")).length
  let aband := (inits.filter (fun d => d.status == some "abandoned")).length
  let rate : ℚ := (comp : ℚ) / ((comp : ℚ) + (aband : ℚ) + 1)
  let score := numOf aw * (3/10) + numOf ae * (3/10) + rate * 40
  some ⟨dOpt, emps.length, aw, ae, rate, score,
    if score > 80 then "SYNERGIZED"
    else if score > 60 then "ALIGNED" else "SILOED"⟩

/-- Duplicate elimination keeping the first occurrence, as AQL RETURN
DISTINCT does. -/
def distinctDocs : List Doc → List Doc
  | [] => []
  | x :: xs => x :: distinctDocs (xs.filter (fun y => !(y == x)))
termination_by l => l.length
decreasing_by
  simpa using Nat.lt_succ_of_le (List.length_filter_le _ xs)

/-- AQL v._id LIKE 'outcomes/%' on a possibly null vertex. -/
def aqlLikeOutcome (od : Option Doc) : Bool :=
  match od with
  | some d => "outcomes/".toList.isPrefixOf d.id.toList
  | none => false

/-- The emissions of findUnintendedConsequences before DISTINCT:
FOR v IN 1..3 OUTBOUND DOCUMENT('initiatives', id) causes
FILTER v._id LIKE 'outcomes/%' FILTER v.type == 'unintended'. -/
def unintendedEmissions (S : Store) (initiativeId : String) : List Doc :=
  ((reachDocsFrom S causesC 3
        ((docWith S "initiatives" initiativeId).map Doc.id)).filter
      (fun od => aqlLikeOutcome od && optTypeIs "unintended" od)).filterMap id

/-- InitiativeService.findUnintendedConsequences. -/
def findUnintendedConsequences (S : Store) (initiativeId : String) :
    List Doc :=
  distinctDocs (unintendedEmissions S initiativeId)

/-! ### Definitions written from the specification text

These exist only to be compared with the source-derived definitions
above; the claims quantify the comparison. -/

/-- Modelled from the spec: clamp(x, lo, hi), the clamp the spec's gap
formula applies, which the source expresses as MIN([gapScore, 100])
with no lower bound. -/
def clampQ (x lo hi : ℚ) : ℚ := max lo (min x hi)

/-- Modelled from the spec: the mean of a list of rationals, or 0 when
the list is empty. -/
def meanOrZero (l : List ℚ) : ℚ :=
  if l = [] then 0 else l.sum / (l.length : ℚ)

/-- Modelled from the spec: metricGap(m) over exactly the hop-1
measures-reachable documents with both value and target set, a target
of 0 excluding the metric. -/
def specMetricGaps (S : Store) (st : Option String) : List ℚ :=
  (gapMetricsOf S st).filterMap metricGapExpr

/-- Modelled from the spec: the wellness scores of the employees of a
department that have one set. -/
def specWellness (S : Store) (dName : Option String) : List ℚ :=
  (S.docs.filter
      (fun d => d.coll == "employees" && d.department == dName)).filterMap
    (fun d => d.wellnessScore)

/-- Modelled from the spec: the engagement levels of the employees of
a department that have one set. -/
def specEngagement (S : Store) (dName : Option String) : List ℚ :=
  (S.docs.filter
      (fun d => d.coll == "employees" && d.department == dName)).filterMap
    (fun d => d.engagementLevel)

/-- Modelled from the spec: count of the department's initiatives with
status completed. -/
def specCompleted (S : Store) (dName : Option String) : ℕ :=
  ((S.docs.filter
        (fun d => d.coll == "initiatives" && d.department == dName)).filter
      (fun d => d.status == some "completed")).length

/-- Modelled from the spec: count of the department's initiatives with
status abandoned. -/
def specAbandoned (S : Store) (dName : Option String) : ℕ :=
  ((S.docs.filter
        (fun d => d.coll == "initiatives" && d.department == dName)).filter
      (fun d => d.status == some "abandoned")).length

/-! ### Concrete stores used by scenario conjuncts, witnesses and
counterexamples -/

/-- Initiative I1 of the gap scenario. -/
def scenI1 : Doc :=
  ⟨"initiatives", "i1", none, some "I1", none, none, none, none, none, none⟩

/-- Unintended outcome O2 of the gap scenario. -/
def scenO2 : Doc :=
  ⟨"outcomes", "o2", some "unintended", none, none, none, none, none, none, none⟩

/-- The spec scenario store: initiative I1 causes O1 (intended) and O2
(unintended) at hop 1 and measures metric M1 (value 50, target 90). -/
def scenStore : Store :=
  ⟨[scenI1,
    ⟨"outcomes", "o1", some "intended", none, none, none, none, none, none, none⟩,
    scenO2,
    ⟨"metrics", "m1", none, some "M1", some 50, some 90, none, none, none, none⟩],
   [⟨"causes", "e1", "initiatives/i1", "outcomes/o1", some (1/2)⟩,
    ⟨"causes", "e2", "initiatives/i1", "outcomes/o2", some (9/10)⟩,
    ⟨"measures", "e3", "initiatives/i1", "metrics/m1", some 1⟩]⟩

/-- A store whose single metric has a negative target, driving the raw
gap score below zero. -/
def negStore : Store :=
  ⟨[scenI1,
    ⟨"metrics", "m1", none, some "M1", some 0, some (-1), none, none, none, none⟩],
   [⟨"measures", "e3", "initiatives/i1", "metrics/m1", some 1⟩]⟩

/-- The unintended outcome reached twice in dupStore. -/
def dupX : Doc :=
  ⟨"outcomes", "x", some "unintended", none, none, none, none, none, none, none⟩

/-- A store with two parallel causes edges to one unintended outcome. -/
def dupStore : Store :=
  ⟨[scenI1, dupX],
   [⟨"causes", "e1", "initiatives/i1", "outcomes/x", some (1/2)⟩,
    ⟨"causes", "e2", "initiatives/i1", "outcomes/x", some (1/2)⟩]⟩

/-- The empty store. -/
def emptyStore : Store := ⟨[], []⟩

/-- Department D of the synergy scenario. -/
def synD1 : Doc :=
  ⟨"departments", "d1", none, some "Engineering", none, none, none, none, none, none⟩

/-- The spec scenario store for synergy: department D with employees
of wellness 80 and 70, engagement 75 and 65, one completed and one
abandoned initiative. -/
def synStore : Store :=
  ⟨[synD1,
    ⟨"employees", "a", none, some "Alice", none, none, some "Engineering", some 80, some 75, none⟩,
    ⟨"employees", "b", none, some "Bob", none, none, some "Engineering", some 70, some 65, none⟩,
    ⟨"initiatives", "p1", none, some "A", none, none, some "Engineering", none, none, some "completed"⟩,
    ⟨"initiatives", "p2", none, some "B", none, none, some "Engineering", none, none, some "abandoned"⟩],
   []⟩

/-- Metric M2 of the gameable scenario: value 95, target 90. -/
def gameM2 : Doc :=
  ⟨"metrics", "m2", none, some "M2", some 95, some 90, none, none, none, none⟩

/-- The spec scenario store for gameable metrics. -/
def gameStore : Store := ⟨[gameM2], []⟩

/-- A two-edge chain whose first edge has strength exactly 0. -/
def zeroStore : Store :=
  ⟨[⟨"initiatives", "a", none, some "A", none, none, none, none, none, none⟩,
    ⟨"outcomes", "b", some "intended", none, none, none, none, none, none, none⟩,
    ⟨"outcomes", "c", some "unintended", none, none, none, none, none, none, none⟩],
   [⟨"causes", "e1", "initiatives/a", "outcomes/b", some 0⟩,
    ⟨"causes", "e2", "outcomes/b", "outcomes/c", some (7/10)⟩]⟩

/-- First edge of defStore: strength absent. -/
def defE1 : GEdge := ⟨"causes", "e1", "initiatives/a", "outcomes/b", none⟩

/-- Second edge of defStore: strength exactly 0. -/
def defE2 : GEdge := ⟨"causes", "e2", "outcomes/b", "outcomes/c", some 0⟩

/-- Starting initiative of defStore. -/
def defA : Doc :=
  ⟨"initiatives", "a", none, some "A", none, none, none, none, none, none⟩

/-- A two-edge chain with one absent and one zero strength. -/
def defStore : Store :=
  ⟨[defA,
    ⟨"outcomes", "b", some "intended", none, none, none, none, none, none, none⟩,
    ⟨"outcomes", "c", some "unintended", none, none, none, none, none, none, none⟩],
   [defE1, defE2]⟩

/-- A store holding one bare initiative, used as the base graph of the
monotonicity witness. -/
def baseStore : Store := ⟨[scenI1], []⟩

/-- The fresh unintended outcome added in the monotonicity witness. -/
def freshOutcome : Doc :=
  ⟨"outcomes", "onew", some "unintended", none, none, none, none, none, none, none⟩

/-- The fresh causes edge added in the monotonicity witness. -/
def freshEdge : GEdge :=
  ⟨"causes", "enew", "initiatives/i1", "outcomes/onew", some (4/5)⟩

/-! ### Helper lemmas -/

theorem walks_zero (adj : String → List (GEdge × String)) (used : List String)
    (v : String) : walks adj 0 used v = [] := rfl

theorem walks_succ (adj : String → List (GEdge × String)) (n : ℕ)
    (used : List String) (v : String) :
    walks adj (n + 1) used v =
      ((adj v).filter (fun p => !(keyMem p.1.key used))).flatMap
        (fun p => ([p.1], p.2) ::
          (walks adj n (p.1.key :: used) p.2).map
            (fun q => (p.1 :: q.1, q.2))) := rfl

theorem walks_one (adj : String → List (GEdge × String)) (used : List String)
    (v : String) :
    walks adj 1 used v =
      ((adj v).filter (fun p => !(keyMem p.1.key used))).map
        (fun p => ([p.1], p.2)) := by
  rw [show (1 : ℕ) = 0 + 1 from rfl, walks_succ]
  simp only [walks_zero, List.map_nil]
  exact (List.map_eq_flatMap _ _).symm

theorem walks_two (adj : String → List (GEdge × String)) (used : List String)
    (v : String) :
    walks adj 2 used v =
      ((adj v).filter (fun p => !(keyMem p.1.key used))).flatMap
        (fun p => ([p.1], p.2) ::
          ((adj p.2).filter
              (fun q => !(keyMem q.1.key (p.1.key :: used)))).map
            (fun q => ([p.1, q.1], q.2))) := by
  rw [show (2 : ℕ) = 1 + 1 from rfl, walks_succ]
  simp only [walks_one, List.map_map]
  rfl

theorem walks_three (adj : String → List (GEdge × String)) (used : List String)
    (v : String) :
    walks adj 3 used v =
      ((adj v).filter (fun p => !(keyMem p.1.key used))).flatMap
        (fun p => ([p.1], p.2) ::
          (walks adj 2 (p.1.key :: used) p.2).map
            (fun q => (p.1 :: q.1, q.2))) := by
  rw [show (3 : ℕ) = 2 + 1 from rfl, walks_succ]

theorem countP_flatMap (p : β → Bool) (f : α → List β) :
    ∀ l : List α,
      ((l.flatMap f).countP p) = (l.map (fun a => (f a).countP p)).sum := by
  intro l
  induction l with
  | nil => simp
  | cons a l ih => simp [List.countP_append, ih]

theorem sum_map_add (f g : α → ℕ) :
    ∀ l : List α,
      (l.map (fun a => f a + g a)).sum = (l.map f).sum + (l.map g).sum := by
  intro l
  induction l with
  | nil => simp
  | cons a l ih => simp [ih]; omega

theorem countP_congr_mem {p q : α → Bool} :
    ∀ {l : List α}, (∀ a ∈ l, p a = q a) → l.countP p = l.countP q := by
  intro l
  induction l with
  | nil => intro _; rfl
  | cons a l ih =>
    intro h
    rw [List.countP_cons, List.countP_cons, ih (fun b hb => h b (by simp [hb])),
      h a (by simp)]

theorem mem_distinctDocs {a : Doc} :
    ∀ {l : List Doc}, a ∈ distinctDocs l ↔ a ∈ l := by
  intro l
  induction l using distinctDocs.induct with
  | case1 => simp [distinctDocs]
  | case2 x xs ih =>
    rw [distinctDocs]
    by_cases hax : a = x
    · subst hax; simp
    · simp only [List.mem_cons, ih, List.mem_filter, hax, false_or]
      constructor
      · exact fun h => h.1
      · exact fun h => ⟨h, by simp [hax]⟩

theorem nodup_distinctDocs : ∀ l : List Doc, (distinctDocs l).Nodup := by
  intro l
  induction l using distinctDocs.induct with
  | case1 => simp [distinctDocs]
  | case2 x xs ih =>
    rw [distinctDocs]
    refine List.nodup_cons.mpr ⟨?_, ih⟩
    intro hx
    have h2 := mem_distinctDocs.mp hx
    have h3 := (List.mem_filter.mp h2).2
    simp at h3

theorem numOf_aqlAvg (xs : List (Option ℚ)) :
    numOf (aqlAvg xs) = meanOrZero (xs.filterMap id) := by
  unfold aqlAvg meanOrZero numOf
  by_cases h : (xs.filterMap id).length = 0
  · simp [h, List.length_eq_zero.mp h]
  · have : xs.filterMap id ≠ [] := by
      intro he
      exact h (by simp [he])
    simp [h, this]

theorem filterMap_id_map_filter (l : List (Option Doc)) :
    (((l.filter hasValueTarget).map metricGapExpr).filterMap id) =
      l.filterMap metricGapExpr := by
  induction l with
  | nil => rfl
  | cons a l ih =>
    by_cases h : hasValueTarget a
    · rw [List.filter_cons_of_pos h, List.map_cons, List.filterMap_cons,
        List.filterMap_cons]
      cases hg : metricGapExpr a <;> simp [ih]
    · have hnone : metricGapExpr a = none := by
        cases a with
        | none => rfl
        | some d =>
          unfold metricGapExpr
          cases hv : d.value with
          | none => cases ht : d.target <;> simp [hv, ht]
          | some v =>
            cases ht : d.target with
            | none => simp [hv, ht]
            | some t =>
              exact absurd (by simp [hasValueTarget, hv, ht]) h
      rw [List.filter_cons_of_neg h, List.filterMap_cons, hnone, ih]

theorem getDocById_append_old (S : Store) (O : Doc) (en : GEdge) (x : String)
    (hx : x ≠ O.id) :
    getDocById ⟨S.docs ++ [O], S.edges ++ [en]⟩ x = getDocById S x := by
  unfold getDocById
  simp only [List.find?_append]
  cases h : S.docs.find? (fun d => d.id == x) with
  | some d => rfl
  | none =>
    have hbx : (O.id == x) = false := beq_eq_false_iff_ne.mpr (Ne.symm hx)
    simp [List.find?, hbx]

theorem getDocById_append_new (S : Store) (O : Doc) (en : GEdge)
    (hfresh : ∀ d ∈ S.docs, d.id ≠ O.id) :
    getDocById ⟨S.docs ++ [O], S.edges ++ [en]⟩ O.id = some O := by
  unfold getDocById
  simp only [List.find?_append]
  have h1 : S.docs.find? (fun d => d.id == O.id) = none := by
    rw [List.find?_eq_none]
    intro d hd
    simp [hfresh d hd]
  simp [h1, List.find?]

theorem docWith_append (S : Store) (O : Doc) (en : GEdge) (c k : String)
    (i : Doc) (h : docWith S c k = some i) :
    docWith ⟨S.docs ++ [O], S.edges ++ [en]⟩ c k = some i := by
  unfold docWith at h ⊢
  simp only [List.find?_append, h, Option.or_some]

theorem outAdj_append_match (es : List GEdge) (en : GEdge)
    (colls : List String) (v : String)
    (hc : keyMem en.coll colls = true) (hv : en.src = v) :
    outAdj (es ++ [en]) colls v = outAdj es colls v ++ [(en, en.dst)] := by
  unfold outAdj
  rw [List.filter_append, List.map_append]
  congr 1
  simp [hc, hv]

theorem outAdj_append_miss (es : List GEdge) (en : GEdge)
    (colls : List String) (v : String)
    (h : (keyMem en.coll colls && en.src == v) = false) :
    outAdj (es ++ [en]) colls v = outAdj es colls v := by
  unfold outAdj
  rw [List.filter_append]
  simp [h]

theorem mem_outAdj {es : List GEdge} {colls : List String} {v : String}
    {p : GEdge × String} (h : p ∈ outAdj es colls v) :
    p.1 ∈ es ∧ p.2 = p.1.dst := by
  unfold outAdj at h
  obtain ⟨e, he, rfl⟩ := List.mem_map.mp h
  exact ⟨(List.mem_filter.mp he).1, rfl⟩

theorem walks_end_from_adj (adj : String → List (GEdge × String)) :
    ∀ (n : ℕ) (used : List String) (v : String) p, p ∈ walks adj n used v →
      ∃ w pr, pr ∈ adj w ∧ p.2 = pr.2 := by
  intro n
  induction n with
  | zero => intro used v p hp; simp [walks_zero] at hp
  | succ n ih =>
    intro used v p hp
    rw [walks_succ] at hp
    obtain ⟨a, ha, hpa⟩ := List.mem_flatMap.mp hp
    have ha' : a ∈ adj v := (List.mem_filter.mp ha).1
    rcases List.mem_cons.mp hpa with h1 | h2
    · exact ⟨v, a, ha', by rw [h1]⟩
    · obtain ⟨q, hq, rfl⟩ := List.mem_map.mp h2
      obtain ⟨w, pr, hpr, he⟩ := ih _ _ q hq
      exact ⟨w, pr, hpr, he⟩

theorem filter_used_nil (l : List (GEdge × String)) :
    l.filter (fun p => !(keyMem p.1.key [])) = l := by
  simp [keyMem]

/-! ### Claim theorems -/

/-- C2: the avgMetricGap used by the gap score is the mean of
|value - target| / target over exactly the hop-1 measures-reachable
documents with both value and target set, a target of 0 being excluded
from the mean, and it is 0 whenever that set of qualifying metrics is
empty. -/
theorem C2_avg_metric_gap (S : Store) (st : Option String) :
    numOf (avgMetricGapOf S st) = meanOrZero (specMetricGaps S st) := by
  by_cases h : 0 < (gapMetricsOf S st).length
  · have h1 : avgMetricGapOf S st =
        aqlAvg (((gapMetricsOf S st).filter hasValueTarget).map
          metricGapExpr) := by
      simp [avgMetricGapOf, h]
    rw [h1, numOf_aqlAvg, filterMap_id_map_filter]
    rfl
  · have hnil : gapMetricsOf S st = [] := by
      cases hms : gapMetricsOf S st with
      | nil => rfl
      | cons a t => rw [hms] at h; simp at h
    simp [avgMetricGapOf, hnil, specMetricGaps, numOf, meanOrZero]

/-- C1 (amended): for every initiative in the store the returned
gapScore is min of the raw formula and 100 — the source applies
MIN([gapScore, 100]) only, with no lower clamp at 0 — and on the spec
scenario store the score is 290/9 (about 32.2) with classification
moderate. -/
theorem C1_gap_score_formula :
    (∀ (S : Store) (k : String) (i : Doc),
        docWith S "initiatives" k = some i →
        (calculateIntentionRealityGap S k).map GapResult.gapScore =
          some (min (((actualOf S (some i.id)).length : ℚ) * 10 +
            numOf (avgMetricGapOf S (some i.id)) * 50 +
            (if (intendedOf S (some i.id)).length = 0 then 25 else 0))
            100)) ∧
    (calculateIntentionRealityGap scenStore "i1").map GapResult.gapScore =
      some (290/9) ∧
    (calculateIntentionRealityGap scenStore "i1").map
      GapResult.severityWord = some "moderate" := by
  refine ⟨?_, ?_, ?_⟩
  · intro S k i h
    simp [calculateIntentionRealityGap, h, rawGapOf]
  · simp [calculateIntentionRealityGap, rawGapOf, actualOf, intendedOf,
      gapMetricsOf, reachDocsFrom, docWith, scenStore, scenI1, scenO2,
      walks_two, walks_one, outAdj, keyMem, causesC, measuresC, getDocById,
      Doc.id, optTypeIs, avgMetricGapOf, aqlAvg, hasValueTarget,
      metricGapExpr, numOf, List.filter_cons, List.find?]
    norm_num
  · simp [calculateIntentionRealityGap, rawGapOf, actualOf, intendedOf,
      gapMetricsOf, reachDocsFrom, docWith, scenStore, scenI1, scenO2,
      walks_two, walks_one, outAdj, keyMem, causesC, measuresC, getDocById,
      Doc.id, optTypeIs, avgMetricGapOf, aqlAvg, hasValueTarget,
      metricGapExpr, numOf, List.filter_cons, List.find?]
    norm_num

/-- Witness for C1: the formula conjunct instantiated on the scenario
store. -/
theorem C1_gap_score_formula_witness :
    (calculateIntentionRealityGap scenStore "i1").map GapResult.gapScore =
      some (min (((actualOf scenStore (some scenI1.id)).length : ℚ) * 10 +
        numOf (avgMetricGapOf scenStore (some scenI1.id)) * 50 +
        (if (intendedOf scenStore (some scenI1.id)).length = 0 then 25
          else 0)) 100) :=
  C1_gap_score_formula.1 scenStore "i1" scenI1 rfl

/-- Counterexample to C1 as stated: on a store whose metric has target
-1 the raw formula is -25, the claimed clamp(. , 0, 100) is 0, but the
source returns -25. -/
theorem C1_clamp_counterexample :
    (calculateIntentionRealityGap negStore "i1").map GapResult.gapScore =
      some (-25) ∧
    clampQ (((actualOf negStore (some scenI1.id)).length : ℚ) * 10 +
        numOf (avgMetricGapOf negStore (some scenI1.id)) * 50 +
        (if (intendedOf negStore (some scenI1.id)).length = 0 then 25
          else 0)) 0 100 = 0 ∧
    ((-25 : ℚ) ≠ 0) := by
  refine ⟨?_, ?_, by norm_num⟩
  · simp [calculateIntentionRealityGap, rawGapOf, actualOf, intendedOf,
      gapMetricsOf, reachDocsFrom, docWith, negStore, scenI1,
      walks_two, walks_one, outAdj, keyMem, causesC, measuresC, getDocById,
      Doc.id, optTypeIs, avgMetricGapOf, aqlAvg, hasValueTarget,
      metricGapExpr, numOf, List.filter_cons, List.find?]
    norm_num
  · simp [clampQ, rawGapOf, actualOf, intendedOf,
      gapMetricsOf, reachDocsFrom, docWith, negStore, scenI1,
      walks_two, walks_one, outAdj, keyMem, causesC, measuresC, getDocById,
      Doc.id, optTypeIs, avgMetricGapOf, aqlAvg, hasValueTarget,
      metricGapExpr, numOf, List.filter_cons, List.find?]
    norm_num

/-- C5 (amended): neither operation ever fails — each always returns a
row; an unresolved initiative id yields a row with gapScore 25, an
unresolved department id yields a row whose department field is
null. -/
theorem C5_never_fails_amended :
    (∀ (S : Store) (k : String),
        (calculateIntentionRealityGap S k).isSome = true ∧
        (calculateDepartmentSynergy S k).isSome = true) ∧
    (∀ (S : Store) (k : String), docWith S "initiatives" k = none →
        (calculateIntentionRealityGap S k).map GapResult.gapScore =
          some 25) ∧
    (∀ (S : Store) (k : String), docWith S "departments" k = none →
        (calculateDepartmentSynergy S k).map SynergyResult.department =
          some none) := by
  refine ⟨fun S k => ⟨rfl, rfl⟩, ?_, ?_⟩
  · intro S k h
    have : min (rawGapOf S none) 100 = 25 := by
      simp [rawGapOf, actualOf, intendedOf, gapMetricsOf, reachDocsFrom,
        avgMetricGapOf, numOf]
      norm_num
    simp [calculateIntentionRealityGap, h, this]
  · intro S k h
    simp [calculateDepartmentSynergy, h]

/-- Witness for C5 (amended): instantiation on the empty store. -/
theorem C5_never_fails_amended_witness :
    (calculateIntentionRealityGap emptyStore "ghost").map
      GapResult.gapScore = some 25 ∧
    (calculateDepartmentSynergy emptyStore "ghost").map
      SynergyResult.department = some none :=
  ⟨C5_never_fails_amended.2.1 emptyStore "ghost" rfl,
   C5_never_fails_amended.2.2 emptyStore "ghost" rfl⟩

/-- The membership characterization behind findGameableMetrics: a row
appears exactly for the metrics-collection documents with value and
target set, nonzero target, and gap above the threshold. -/
theorem mem_findGameableMetrics (S : Store) (θ : ℚ) (r : GameableRec) :
    r ∈ findGameableMetrics S θ ↔
      ∃ d ∈ S.docs, d.coll = "metrics" ∧
        ∃ v t : ℚ, d.value = some v ∧ d.target = some t ∧ t ≠ 0 ∧
          θ < |v - t| / t ∧
          r = ⟨d, some (|v - t| / t), suspicionOf (some (|v - t| / t))⟩ := by
  simp only [findGameableMetrics, gameableRows, List.mem_map,
    List.mem_insertionSort, List.mem_filter]
  constructor
  · rintro ⟨d, ⟨⟨hd, hc1⟩, hc2⟩, rfl⟩
    simp only [Bool.and_eq_true, beq_iff_eq, Option.isSome_iff_exists] at hc1
    obtain ⟨⟨hcoll, t, ht⟩, v, hv⟩ := hc1
    by_cases ht0 : t = 0
    · have hg0 : metricRowGap d = none := by
        simp [metricRowGap, hv, ht, ht0]
      rw [hg0] at hc2
      simp [aqlGtNum] at hc2
    · have hg : metricRowGap d = some (|v - t| / t) := by
        simp [metricRowGap, hv, ht, ht0]
      rw [hg] at hc2
      simp only [aqlGtNum, decide_eq_true_eq] at hc2
      exact ⟨d, hd, hcoll, v, t, hv, ht, ht0, hc2, by rw [hg]⟩
  · rintro ⟨d, hd, hcoll, v, t, hv, ht, ht0, hgt, rfl⟩
    have hg : metricRowGap d = some (|v - t| / t) := by
      simp [metricRowGap, hv, ht, ht0]
    refine ⟨d, ⟨⟨hd, ?_⟩, ?_⟩, ?_⟩
    · simp [hcoll, hv, ht]
    · simp [aqlGtNum, hg, hgt]
    · rw [hg]

/-- C6: for every department in the store the synergy score is
avgWellness*0.3 + avgEngagement*0.3 + successRatio*40 with the
averages taken over employees having the score defined (0 when none)
and successRatio = completed/(completed+abandoned+1), graded
SYNERGIZED above 80, ALIGNED above 60, SILOED otherwise; the spec
scenario evaluates to 341/6 (about 56.83) with grade SILOED. -/
theorem C6_synergy_formula :
    (∀ (S : Store) (k : String) (d : Doc),
        docWith S "departments" k = some d →
        ∃ r, calculateDepartmentSynergy S k = some r ∧
          r.synergyScore =
            meanOrZero (specWellness S d.name) * (3/10) +
            meanOrZero (specEngagement S d.name) * (3/10) +
            ((specCompleted S d.name : ℚ) /
              ((specCompleted S d.name : ℚ) + (specAbandoned S d.name : ℚ)
                + 1)) * 40 ∧
          r.synergyGrade = (if r.synergyScore > 80 then "SYNERGIZED"
            else if r.synergyScore > 60 then "ALIGNED" else "SILOED")) ∧
    (calculateDepartmentSynergy synStore "d1").map
      SynergyResult.synergyScore = some (341/6) ∧
    (calculateDepartmentSynergy synStore "d1").map
      SynergyResult.synergyGrade = some "SILOED" := by
  refine ⟨?_, ?_, ?_⟩
  · intro S k d h
    simp only [calculateDepartmentSynergy, h, Option.bind_some]
    refine ⟨_, rfl, ?_, rfl⟩
    rw [numOf_aqlAvg, numOf_aqlAvg, List.filterMap_map, List.filterMap_map]
    rfl
  · simp [calculateDepartmentSynergy, synStore, synD1, docWith,
      List.find?, List.filter_cons, aqlAvg, numOf]
    norm_num
  · simp [calculateDepartmentSynergy, synStore, synD1, docWith,
      List.find?, List.filter_cons, aqlAvg, numOf]
    norm_num

/-- Witness for C6: the formula conjunct instantiated on the scenario
store. -/
theorem C6_synergy_formula_witness :
    ∃ r, calculateDepartmentSynergy synStore "d1" = some r ∧
      r.synergyScore =
        meanOrZero (specWellness synStore synD1.name) * (3/10) +
        meanOrZero (specEngagement synStore synD1.name) * (3/10) +
        ((specCompleted synStore synD1.name : ℚ) /
          ((specCompleted synStore synD1.name : ℚ) +
            (specAbandoned synStore synD1.name : ℚ) + 1)) * 40 ∧
      r.synergyGrade = (if r.synergyScore > 80 then "SYNERGIZED"
        else if r.synergyScore > 60 then "ALIGNED" else "SILOED") :=
  C6_synergy_formula.1 synStore "d1" synD1 rfl

/-- C7: findGameableMetrics considers exactly the metrics with value
and target set and target nonzero, retains those whose gap exceeds the
threshold, sorts descending by gap, and labels EXTREME above 0.9, HIGH
above 0.7, MODERATE otherwise; the scenario metric of gap 1/18 is
returned MODERATE under threshold 1/20 and excluded under 1/2. -/
theorem C7_gameable_metrics :
    (∀ (S : Store) (θ : ℚ) (r : GameableRec),
        r ∈ findGameableMetrics S θ ↔
          ∃ d ∈ S.docs, d.coll = "metrics" ∧
            ∃ v t : ℚ, d.value = some v ∧ d.target = some t ∧ t ≠ 0 ∧
              θ < |v - t| / t ∧
              r = ⟨d, some (|v - t| / t),
                suspicionOf (some (|v - t| / t))⟩) ∧
    (∀ (S : Store) (θ : ℚ),
        List.Sorted (fun a b : GameableRec =>
          numOf b.gap ≤ numOf a.gap) (findGameableMetrics S θ)) ∧
    (∀ (S : Store) (θ : ℚ) (r : GameableRec), r ∈ findGameableMetrics S θ →
        ((9:ℚ)/10 < numOf r.gap ∧ r.suspicionLevel = "EXTREME") ∨
        ((7:ℚ)/10 < numOf r.gap ∧ numOf r.gap ≤ 9/10 ∧
          r.suspicionLevel = "HIGH") ∨
        (numOf r.gap ≤ 7/10 ∧ r.suspicionLevel = "MODERATE")) ∧
    findGameableMetrics gameStore (1/20) =
      [⟨gameM2, some (1/18), "MODERATE"⟩] ∧
    findGameableMetrics gameStore (1/2) = [] := by
  refine ⟨mem_findGameableMetrics, ?_, ?_, ?_, ?_⟩
  · intro S θ
    unfold findGameableMetrics
    rw [List.Sorted, List.pairwise_map]
    haveI : IsTotal Doc (fun a b : Doc =>
        numOf (metricRowGap b) ≤ numOf (metricRowGap a)) :=
      ⟨fun a b => le_total _ _⟩
    haveI : IsTrans Doc (fun a b : Doc =>
        numOf (metricRowGap b) ≤ numOf (metricRowGap a)) :=
      ⟨fun a b c h1 h2 => le_trans h2 h1⟩
    exact List.sorted_insertionSort _ _
  · intro S θ r hr
    obtain ⟨d, _, _, v, t, _, _, _, _, rfl⟩ :=
      (mem_findGameableMetrics S θ r).mp hr
    set g : ℚ := |v - t| / t with hgdef
    by_cases h9 : (9:ℚ)/10 < g
    · left
      exact ⟨by simpa [numOf] using h9,
        by simp [suspicionOf, aqlGtNum, h9]⟩
    · by_cases h7 : (7:ℚ)/10 < g
      · right; left
        exact ⟨by simpa [numOf] using h7, by simpa [numOf] using not_lt.mp h9,
          by simp [suspicionOf, aqlGtNum, h9, h7]⟩
      · right; right
        exact ⟨by simpa [numOf] using not_lt.mp h7,
          by simp [suspicionOf, aqlGtNum, h9, h7]⟩
  · simp [findGameableMetrics, gameableRows, gameStore, gameM2, metricRowGap,
      aqlGtNum, suspicionOf, List.insertionSort, List.orderedInsert,
      List.filter_cons, List.find?]
    norm_num
  · simp [findGameableMetrics, gameableRows, gameStore, gameM2, metricRowGap,
      aqlGtNum, suspicionOf, List.insertionSort, List.orderedInsert,
      List.filter_cons, List.find?]
    norm_num

/-- Witness for C7: the membership conjunct instantiated on the
scenario store, and the classification conjunct on its row. -/
theorem C7_gameable_metrics_witness :
    (⟨gameM2, some (1/18), "MODERATE"⟩ : GameableRec) ∈
      findGameableMetrics gameStore (1/20) ∧
    (((9:ℚ)/10 < numOf (some ((1:ℚ)/18)) ∧
        ("MODERATE" : String) = "EXTREME") ∨
      ((7:ℚ)/10 < numOf (some ((1:ℚ)/18)) ∧ numOf (some ((1:ℚ)/18)) ≤ 9/10 ∧
        ("MODERATE" : String) = "HIGH") ∨
      (numOf (some ((1:ℚ)/18)) ≤ 7/10 ∧
        ("MODERATE" : String) = "MODERATE")) := by
  have hmem : (⟨gameM2, some (1/18), "MODERATE"⟩ : GameableRec) ∈
      findGameableMetrics gameStore (1/20) := by
    refine (C7_gameable_metrics.1 gameStore (1/20) _).mpr
      ⟨gameM2, by simp [gameStore], rfl, 95, 90, rfl, rfl, by norm_num,
        by norm_num, ?_⟩
    have h1 : |(95:ℚ) - 90| / 90 = 1/18 := by norm_num
    rw [h1]
    have h2 : suspicionOf (some ((1:ℚ)/18)) = "MODERATE" := by
      simp [suspicionOf, aqlGtNum]
      norm_num
    rw [h2]
  have hcls := C7_gameable_metrics.2.2.1 gameStore (1/20) _ hmem
  exact ⟨hmem, hcls⟩

/-- C8: detectMetricTheater returns one record, scored 100, exactly
for the metric vertices whose 2-hop ANY-direction reach over the
causal_graph edge collections contains no initiatives-collection
vertex. -/
theorem C8_metric_theater :
    ∀ (S : Store) (r : TheaterRec),
      (r ∈ detectMetricTheater S ↔
        ∃ m ∈ S.docs, m.coll = "metrics" ∧
          (∀ od ∈ theaterReach S m, aqlLikeInit od = false) ∧
          r = ⟨m, 100⟩) ∧
      (r ∈ detectMetricTheater S → r.theaterScore = 100) := by
  intro S r
  have hiff : r ∈ detectMetricTheater S ↔
      ∃ m ∈ S.docs, m.coll = "metrics" ∧
        (∀ od ∈ theaterReach S m, aqlLikeInit od = false) ∧
        r = ⟨m, 100⟩ := by
    unfold detectMetricTheater linkedInitiativesOf
    simp only [List.mem_map, List.mem_filter]
    constructor
    · rintro ⟨m, ⟨⟨hm, hcoll⟩, hlen⟩, rfl⟩
      refine ⟨m, hm, by simpa using hcoll, ?_, rfl⟩
      intro od hod
      have hnil : (theaterReach S m).filter aqlLikeInit = [] := by
        rw [← List.length_eq_zero]
        simpa using hlen
      have := List.filter_eq_nil_iff.mp hnil od hod
      simpa using this
    · rintro ⟨m, hm, hcoll, hall, rfl⟩
      refine ⟨m, ⟨⟨hm, by simp [hcoll]⟩, ?_⟩, rfl⟩
      have hnil : (theaterReach S m).filter aqlLikeInit = [] :=
        List.filter_eq_nil_iff.mpr (fun a ha => by simp [hall a ha])
      simp [hnil]
  refine ⟨hiff, ?_⟩
  intro hr
  obtain ⟨m, _, _, _, rfl⟩ := hiff.mp hr
  rfl

/-- Witness for C8: on the gameable scenario store the single metric
has an empty causal reach, so it is reported as theater with score
100. -/
theorem C8_metric_theater_witness :
    (⟨gameM2, 100⟩ : TheaterRec) ∈ detectMetricTheater gameStore ∧
    (⟨gameM2, 100⟩ : TheaterRec).theaterScore = 100 := by
  have hmem : (⟨gameM2, 100⟩ : TheaterRec) ∈ detectMetricTheater gameStore := by
    refine ((C8_metric_theater gameStore _).1).mpr
      ⟨gameM2, by simp [gameStore], rfl, ?_, rfl⟩
    intro od hod
    simp [theaterReach, gameStore, walks_two, anyAdj, List.find?] at hod
  exact ⟨hmem, (C8_metric_theater gameStore _).2 hmem⟩

/-- Counterexample to C5 as stated: for an identifier resolving to no
vertex neither operation fails — both return a full result row built
from the null document. -/
theorem C5_no_notfound_counterexample :
    calculateIntentionRealityGap emptyStore "ghost" =
      some ⟨none, none, [], 25, [], "moderate"⟩ ∧
    calculateDepartmentSynergy emptyStore "ghost" =
      some ⟨none, 0, none, none, 0, 0, "SILOED"⟩ := by
  constructor
  · simp [calculateIntentionRealityGap, emptyStore, docWith, List.find?,
      rawGapOf, actualOf, intendedOf, gapMetricsOf, reachDocsFrom,
      avgMetricGapOf, aqlAvg, numOf]
    norm_num
  · simp [calculateDepartmentSynergy, emptyStore, docWith, List.find?,
      aqlAvg, numOf]
    norm_num

/-- C3 (amended): every row reported by traceCausalPath carries the
product of the effective strengths of its walk; when every edge has a
nonzero strength set this is the product of the stored strengths, and
for a two-hop walk with nonzero strengths s1 and s2 it is s1*s2 —
never a sum or a minimum.  The source substitutes 0.5 for an absent,
null or zero strength before multiplying. -/
theorem C3_path_strength_product :
    (∀ (S : Store) (f t : String) (md : ℕ) (r : PathRec),
        r ∈ traceCausalPath S f t md →
        ∃ p ∈ tracePaths S f t md, r.totalStrength = pathStrength p.1) ∧
    (∀ es : List GEdge, (∀ e ∈ es, ∃ s, e.strength = some s ∧ s ≠ 0) →
        pathStrength es = (es.map (fun e => e.strength.getD 0)).prod) ∧
    (∀ (e1 e2 : GEdge) (s1 s2 : ℚ), e1.strength = some s1 → s1 ≠ 0 →
        e2.strength = some s2 → s2 ≠ 0 →
        pathStrength [e1, e2] = s1 * s2) := by
  refine ⟨?_, ?_, ?_⟩
  · intro S f t md r hr
    unfold traceCausalPath at hr
    cases h : getDocById S f with
    | none => rw [h] at hr; simp at hr
    | some s0 =>
      rw [h] at hr
      obtain ⟨p, hp, rfl⟩ := List.mem_map.mp hr
      exact ⟨p, hp, rfl⟩
  · intro es h
    induction es with
    | nil => rfl
    | cons e es ih =>
      obtain ⟨s, hs, hns⟩ := h e (by simp)
      have he : effStrength e = e.strength.getD 0 := by
        simp [effStrength, hs, hns]
      simp only [pathStrength, List.map_cons, List.prod_cons] at ih ⊢
      rw [he, ih (fun x hx => h x (by simp [hx]))]
  · intro e1 e2 s1 s2 h1 hn1 h2 hn2
    simp [pathStrength, effStrength, h1, h2, hn1, hn2]

/-- Witness for C3 (amended): a concrete two-hop walk with strengths
1/2 and 7/10 has total strength (1/2)*(7/10). -/
theorem C3_path_strength_product_witness :
    pathStrength [⟨"causes", "x1", "a", "b", some (1/2)⟩,
      ⟨"causes", "x2", "b", "c", some (7/10)⟩] = (1/2) * (7/10) :=
  C3_path_strength_product.2.2 _ _ _ _ rfl (by norm_num) rfl (by norm_num)

/-- Counterexample to C3 as stated: in a chain whose first edge stores
strength exactly 0 the reported total is (0.5)*(7/10) = 7/20, not the
product 0*(7/10) = 0 of the stored strengths. -/
theorem C3_zero_strength_counterexample :
    (traceCausalPath zeroStore "initiatives/a" "outcomes/c" 2).map
      PathRec.totalStrength = [7/20] ∧
    ((7:ℚ)/20 ≠ (0:ℚ) * (7/10)) := by
  constructor
  · simp [traceCausalPath, tracePaths, zeroStore, walks_two, walks_one,
      outAdj, keyMem, causesC, getDocById, Doc.id, List.filter_cons,
      List.find?, mkPathRec, pathStrength, effStrength]
    norm_num
  · norm_num

/-- C4 (amended): findUnintendedConsequences deduplicates its result
by RETURN DISTINCT — every vertex appears at most once and exactly the
emitted vertices appear — while the intended and actual traversals of
calculateIntentionRealityGap emit one occurrence per traversal walk,
so a vertex reachable several ways appears several times there. -/
theorem C4_distinct_consequences :
    ∀ (S : Store) (k : String),
      (findUnintendedConsequences S k).Nodup ∧
      (∀ d : Doc, d ∈ findUnintendedConsequences S k ↔
        d ∈ unintendedEmissions S k) := by
  intro S k
  exact ⟨nodup_distinctDocs _, fun d => mem_distinctDocs⟩

/-- Counterexample to C4 as stated: with two parallel causes edges to
one unintended outcome, the actual traversal of
calculateIntentionRealityGap emits that outcome twice, not once. -/
theorem C4_duplicate_emission_counterexample :
    actualOf dupStore (some scenI1.id) = [some dupX, some dupX] ∧
    (actualOf dupStore (some scenI1.id)).countP
      (fun od => od == some dupX) = 2 := by
  have h : actualOf dupStore (some scenI1.id) = [some dupX, some dupX] := by
    simp [actualOf, reachDocsFrom, dupStore, scenI1, dupX, walks_two,
      outAdj, keyMem, causesC, getDocById, Doc.id, optTypeIs,
      List.filter_cons, List.find?]
  refine ⟨h, ?_⟩
  rw [h]
  rfl

/-- C10: an edge whose strength is absent or exactly 0 contributes the
factor 0.5 to totalStrength, so a reported walk made only of such
edges has total strength (1/2)^length, which is strictly positive. -/
theorem C10_default_strength :
    (∀ e : GEdge, e.strength = none ∨ e.strength = some 0 →
        effStrength e = 1/2) ∧
    (∀ (S : Store) (f t : String) (md : ℕ) (p : List GEdge × String)
        (s0 : Doc), getDocById S f = some s0 → p ∈ tracePaths S f t md →
        (∀ e ∈ p.1, e.strength = none ∨ e.strength = some 0) →
        mkPathRec f t s0.id p ∈ traceCausalPath S f t md ∧
        (mkPathRec f t s0.id p).totalStrength = (1/2) ^ p.1.length ∧
        0 < (mkPathRec f t s0.id p).totalStrength) := by
  have heff : ∀ e : GEdge, e.strength = none ∨ e.strength = some 0 →
      effStrength e = 1/2 := by
    intro e h
    rcases h with h | h <;> simp [effStrength, h]
  have hpow : ∀ es : List GEdge,
      (∀ e ∈ es, e.strength = none ∨ e.strength = some 0) →
      pathStrength es = (1/2) ^ es.length := by
    intro es h
    induction es with
    | nil => rfl
    | cons e es ih =>
      simp only [pathStrength, List.map_cons, List.prod_cons] at ih ⊢
      rw [heff e (h e (by simp)), ih (fun x hx => h x (by simp [hx])),
        List.length_cons, pow_succ]
      ring
  refine ⟨heff, ?_⟩
  intro S f t md p s0 h0 hp hall
  refine ⟨?_, ?_, ?_⟩
  · unfold traceCausalPath
    rw [h0]
    exact List.mem_map_of_mem _ hp
  · exact hpow p.1 hall
  · have := hpow p.1 hall
    show 0 < (mkPathRec f t s0.id p).totalStrength
    have h2 : (mkPathRec f t s0.id p).totalStrength = (1/2:ℚ) ^ p.1.length :=
      this
    rw [h2]
    positivity

/-- Witness for C10: the two-edge chain with an absent and a zero
strength is reported with total strength (1/2)^2 > 0. -/
theorem C10_default_strength_witness :
    mkPathRec "initiatives/a" "outcomes/c" defA.id
        ([defE1, defE2], "outcomes/c") ∈
      traceCausalPath defStore "initiatives/a" "outcomes/c" 2 ∧
    (mkPathRec "initiatives/a" "outcomes/c" defA.id
        ([defE1, defE2], "outcomes/c")).totalStrength =
      (1/2) ^ ([defE1, defE2] : List GEdge).length ∧
    0 < (mkPathRec "initiatives/a" "outcomes/c" defA.id
        ([defE1, defE2], "outcomes/c")).totalStrength := by
  have h0 : getDocById defStore "initiatives/a" = some defA := rfl
  have hp : (([defE1, defE2], "outcomes/c") : List GEdge × String) ∈
      tracePaths defStore "initiatives/a" "outcomes/c" 2 := by
    simp [tracePaths, defStore, defA, defE1, defE2, walks_two, outAdj,
      keyMem, causesC, getDocById, Doc.id, List.filter_cons, List.find?]
  have hall : ∀ e ∈ ([defE1, defE2] : List GEdge),
      e.strength = none ∨ e.strength = some 0 := by
    intro e he
    rcases List.mem_cons.mp he with rfl | he2
    · left; rfl
    · rcases List.mem_cons.mp he2 with rfl | he3
      · right; rfl
      · simp at he3
  exact C10_default_strength.2 defStore "initiatives/a" "outcomes/c" 2
    ([defE1, defE2], "outcomes/c") defA h0 hp hall

/-! ### Lemmas supporting the gap monotonicity claim -/

theorem outAdj_causes_ext (S : Store) (en : GEdge) (henc : en.coll = "causes") :
    ∀ v, outAdj (S.edges ++ [en]) causesC v =
      outAdj S.edges causesC v ++
        (if en.src = v then [(en, en.dst)] else []) := by
  intro v
  by_cases h : en.src = v
  · rw [if_pos h,
      outAdj_append_match _ _ _ _ (by simp [keyMem, causesC, henc]) h]
  · rw [if_neg h, outAdj_append_miss, List.append_nil]
    simp [keyMem, causesC, henc, h]

theorem outAdj_causes_at_fresh (S : Store) (O : Doc) (en : GEdge)
    (hE : ∀ e ∈ S.edges, e.src ≠ O.id) (hsrc : en.src ≠ O.id) :
    outAdj (S.edges ++ [en]) causesC O.id = [] := by
  unfold outAdj
  have hnil : (S.edges ++ [en]).filter
      (fun e => keyMem e.coll causesC && e.src == O.id) = [] := by
    rw [List.filter_eq_nil_iff]
    intro e he
    rcases List.mem_append.mp he with h1 | h2
    · simp [hE e h1]
    · rw [List.mem_singleton.mp h2]
      simp [hsrc]
  rw [hnil, List.map_nil]

theorem gapMetrics_extend (S : Store) (O : Doc) (en : GEdge)
    (hE : ∀ e ∈ S.edges, e.dst ≠ O.id) (henc : en.coll = "causes")
    (v : String) :
    gapMetricsOf ⟨S.docs ++ [O], S.edges ++ [en]⟩ (some v) =
      gapMetricsOf S (some v) := by
  have hadj : outAdj (S.edges ++ [en]) measuresC = outAdj S.edges measuresC := by
    funext w
    apply outAdj_append_miss
    simp [keyMem, measuresC, henc]
  show (walks (outAdj (S.edges ++ [en]) measuresC) 1 [] v).map
      (fun p => getDocById ⟨S.docs ++ [O], S.edges ++ [en]⟩ p.2) =
    (walks (outAdj S.edges measuresC) 1 [] v).map
      (fun p => getDocById S p.2)
  rw [hadj]
  apply List.map_congr_left
  intro p hp
  obtain ⟨w, pr, hpr, he⟩ := walks_end_from_adj _ _ _ _ p hp
  obtain ⟨hin, hdst⟩ := mem_outAdj hpr
  rw [he, hdst]
  exact getDocById_append_old S O en _ (hE pr.1 hin)

theorem intended_extend (S : Store) (i O : Doc) (en : GEdge)
    (hOt : O.vtype = some "unintended")
    (hDfresh : ∀ d ∈ S.docs, d.id ≠ O.id)
    (hEfresh : ∀ e ∈ S.edges, e.src ≠ O.id ∧ e.dst ≠ O.id ∧ e.key ≠ en.key)
    (henc : en.coll = "causes") (hens : en.src = i.id) (hend : en.dst = O.id) :
    intendedOf ⟨S.docs ++ [O], S.edges ++ [en]⟩ (some i.id) =
      intendedOf S (some i.id) := by
  have hL : reachDocsFrom ⟨S.docs ++ [O], S.edges ++ [en]⟩ causesC 1
      (some i.id) = reachDocsFrom S causesC 1 (some i.id) ++ [some O] := by
    show (walks (outAdj (S.edges ++ [en]) causesC) 1 [] i.id).map
        (fun p => getDocById ⟨S.docs ++ [O], S.edges ++ [en]⟩ p.2) =
      (walks (outAdj S.edges causesC) 1 [] i.id).map
        (fun p => getDocById S p.2) ++ [some O]
    rw [walks_one, walks_one, filter_used_nil, filter_used_nil,
      outAdj_causes_ext S en henc i.id, if_pos hens, List.map_append,
      List.map_append]
    congr 1
    · rw [List.map_map, List.map_map]
      apply List.map_congr_left
      intro p hp
      obtain ⟨hin, hdst⟩ := mem_outAdj hp
      show getDocById _ p.2 = getDocById S p.2
      rw [hdst]
      exact getDocById_append_old S O en _ (hEfresh p.1 hin).2.1
    · show [getDocById _ en.dst] = [some O]
      rw [hend, getDocById_append_new S O en hDfresh]
  unfold intendedOf
  rw [hL, List.filter_append]
  have : (([some O] : List (Option Doc)).filter (optTypeIs "intended")) = [] := by
    simp [optTypeIs, hOt]
  rw [this, List.append_nil]

theorem actual_count_extend (S : Store) (i O : Doc) (en : GEdge)
    (hOt : O.vtype = some "unintended")
    (hDfresh : ∀ d ∈ S.docs, d.id ≠ O.id)
    (hEfresh : ∀ e ∈ S.edges, e.src ≠ O.id ∧ e.dst ≠ O.id ∧ e.key ≠ en.key)
    (henc : en.coll = "causes") (hens : en.src = i.id) (hend : en.dst = O.id)
    (hiO : i.id ≠ O.id) :
    ∃ c : ℕ,
      (actualOf ⟨S.docs ++ [O], S.edges ++ [en]⟩ (some i.id)).length =
        (actualOf S (some i.id)).length + (c + 1) := by
  classical
  set S' : Store := ⟨S.docs ++ [O], S.edges ++ [en]⟩ with hS'
  set Fb : Option Doc → Bool :=
    fun od => optTypeIs "unintended" od || optTypeIs "emergent" od with hFb
  have hlen : ∀ T : Store, (actualOf T (some i.id)).length =
      List.countP (fun p => Fb (getDocById T p.2))
        (walks (outAdj T.edges causesC) 2 [] i.id) := by
    intro T
    simp only [actualOf, reachDocsFrom]
    rw [← List.countP_eq_length_filter, List.countP_map]
    rfl
  have hcount : ∀ T : Store,
      List.countP (fun p => Fb (getDocById T p.2))
        (walks (outAdj T.edges causesC) 2 [] i.id) =
      ((outAdj T.edges causesC i.id).map (fun p =>
        List.countP (fun q => Fb (getDocById T q.2))
          ((outAdj T.edges causesC p.2).filter
            (fun q => !(keyMem q.1.key [p.1.key]))) +
        (if Fb (getDocById T p.2) then 1 else 0))).sum := by
    intro T
    rw [walks_two, filter_used_nil, countP_flatMap]
    congr 1
    apply List.map_congr_left
    intro p hp
    rw [List.countP_cons, List.countP_map]
    rfl
  set A := outAdj S.edges causesC i.id with hA
  have hadjI : outAdj S'.edges causesC i.id = A ++ [(en, en.dst)] := by
    show outAdj (S.edges ++ [en]) causesC i.id = A ++ [(en, en.dst)]
    rw [outAdj_causes_ext S en henc i.id, if_pos hens]
  have hgd : ∀ x : String, x ≠ O.id → getDocById S' x = getDocById S x :=
    fun x hx => getDocById_append_old S O en x hx
  have hFbO : Fb (getDocById S' O.id) = true := by
    rw [getDocById_append_new S O en hDfresh]
    simp [hFb, optTypeIs, hOt]
  -- the inner count of the new adjacency entry is 0
  have hinnerNew : outAdj S'.edges causesC en.dst = [] := by
    show outAdj (S.edges ++ [en]) causesC en.dst = []
    rw [hend]
    exact outAdj_causes_at_fresh S O en (fun e he => (hEfresh e he).1)
      (hens ▸ hiO)
  -- each old entry contributes its old count plus one when it loops back
  have hold : ∀ p ∈ A,
      (List.countP (fun q => Fb (getDocById S' q.2))
          ((outAdj S'.edges causesC p.2).filter
            (fun q => !(keyMem q.1.key [p.1.key]))) +
        (if Fb (getDocById S' p.2) then 1 else 0)) =
      (List.countP (fun q => Fb (getDocById S q.2))
          ((outAdj S.edges causesC p.2).filter
            (fun q => !(keyMem q.1.key [p.1.key]))) +
        (if Fb (getDocById S p.2) then 1 else 0)) +
      (if p.2 = i.id then 1 else 0) := by
    intro p hp
    obtain ⟨hin, hdst⟩ := mem_outAdj hp
    have hp2O : p.2 ≠ O.id := by rw [hdst]; exact (hEfresh p.1 hin).2.1
    have hgdp : getDocById S' p.2 = getDocById S p.2 := hgd p.2 hp2O
    have hcongr : ∀ l : List (GEdge × String),
        (∀ q ∈ l, q ∈ outAdj S.edges causesC p.2) →
        List.countP (fun q => Fb (getDocById S' q.2)) l =
          List.countP (fun q => Fb (getDocById S q.2)) l := by
      intro l hl
      apply countP_congr_mem
      intro q hq
      obtain ⟨hqin, hqdst⟩ := mem_outAdj (hl q hq)
      have : q.2 ≠ O.id := by rw [hqdst]; exact (hEfresh q.1 hqin).2.1
      rw [hgd q.2 this]
    by_cases hpi : p.2 = i.id
    · have hinner : outAdj S'.edges causesC p.2 = A ++ [(en, en.dst)] := by
        rw [hpi]; exact hadjI
      rw [hinner, List.filter_append, List.countP_append]
      have hkeep : (([(en, en.dst)] : List (GEdge × String)).filter
          (fun q => !(keyMem q.1.key [p.1.key]))) = [(en, en.dst)] := by
        have hne : (p.1.key == en.key) = false := by
          simp [(hEfresh p.1 hin).2.2]
        simp [keyMem, hne]
      rw [hkeep]
      have hone : List.countP (fun q => Fb (getDocById S' q.2))
          ([(en, en.dst)] : List (GEdge × String)) = 1 := by
        rw [List.countP_cons]
        simp [hend, hFbO]
      rw [hone,
        hcongr (A.filter (fun q => !(keyMem q.1.key [p.1.key])))
          (fun q hq => by rw [hpi]; exact (List.mem_filter.mp hq).1),
        hgdp, if_pos hpi, hpi, ← hA]
      omega
    · have hinner : outAdj S'.edges causesC p.2 = outAdj S.edges causesC p.2 := by
        show outAdj (S.edges ++ [en]) causesC p.2 = _
        rw [outAdj_causes_ext S en henc p.2,
          if_neg (by rw [hens]; exact fun h => hpi h.symm), List.append_nil]
      rw [hinner,
        hcongr ((outAdj S.edges causesC p.2).filter
            (fun q => !(keyMem q.1.key [p.1.key])))
          (fun q hq => (List.mem_filter.mp hq).1),
        hgdp, if_neg hpi, add_zero]
  -- assemble
  refine ⟨(A.map (fun p => if p.2 = i.id then 1 else 0)).sum, ?_⟩
  rw [hlen S', hlen S, hcount S', hcount S, hadjI, List.map_append,
    List.sum_append]
  have hnewterm : (([(en, en.dst)] : List (GEdge × String)).map (fun p =>
      List.countP (fun q => Fb (getDocById S' q.2))
        ((outAdj S'.edges causesC p.2).filter
          (fun q => !(keyMem q.1.key [p.1.key]))) +
      (if Fb (getDocById S' p.2) then 1 else 0))).sum = 1 := by
    simp only [List.map_cons, List.map_nil, List.sum_cons, List.sum_nil]
    rw [hinnerNew]
    simp [hend, hFbO]
  rw [hnewterm, List.map_congr_left hold, sum_map_add, ← hA]
  omega

/-- C9: adding one fresh unintended outcome with a causes edge from
the initiative (reachable in the 1..2 hop window) either leaves the
gap score unchanged at 100, when it is already clamped there, or
strictly increases it. -/
theorem C9_gap_monotone :
    ∀ (S : Store) (k : String) (i O : Doc) (en : GEdge),
      docWith S "initiatives" k = some i →
      O.coll = "outcomes" →
      O.vtype = some "unintended" →
      (∀ d ∈ S.docs, d.id ≠ O.id) →
      (∀ e ∈ S.edges, e.src ≠ O.id ∧ e.dst ≠ O.id ∧ e.key ≠ en.key) →
      en.coll = "causes" → en.src = i.id → en.dst = O.id →
      ∀ g g' : ℚ,
        (calculateIntentionRealityGap S k).map GapResult.gapScore = some g →
        (calculateIntentionRealityGap ⟨S.docs ++ [O], S.edges ++ [en]⟩ k).map
          GapResult.gapScore = some g' →
        (g = 100 → g' = 100) ∧ (g ≠ 100 → g < g') := by
  intro S k i O en hfind hOc hOt hDfresh hEfresh henc hens hend g g' hg hg'
  have hiMem : i ∈ S.docs := List.mem_of_find?_eq_some hfind
  have hiO : i.id ≠ O.id := hDfresh i hiMem
  have hfind' : docWith ⟨S.docs ++ [O], S.edges ++ [en]⟩ "initiatives" k =
      some i := docWith_append S O en _ _ i hfind
  have hgval : g = min (rawGapOf S (some i.id)) 100 := by
    simp [calculateIntentionRealityGap, hfind] at hg
    exact hg.symm
  have hgval' : g' =
      min (rawGapOf ⟨S.docs ++ [O], S.edges ++ [en]⟩ (some i.id)) 100 := by
    simp [calculateIntentionRealityGap, hfind'] at hg'
    exact hg'.symm
  obtain ⟨c, hc⟩ := actual_count_extend S i O en hOt hDfresh hEfresh henc
    hens hend hiO
  have hmet : gapMetricsOf ⟨S.docs ++ [O], S.edges ++ [en]⟩ (some i.id) =
      gapMetricsOf S (some i.id) :=
    gapMetrics_extend S O en (fun e he => (hEfresh e he).2.1) henc i.id
  have havg : avgMetricGapOf ⟨S.docs ++ [O], S.edges ++ [en]⟩ (some i.id) =
      avgMetricGapOf S (some i.id) := by
    unfold avgMetricGapOf
    rw [hmet]
  have hint : intendedOf ⟨S.docs ++ [O], S.edges ++ [en]⟩ (some i.id) =
      intendedOf S (some i.id) :=
    intended_extend S i O en hOt hDfresh hEfresh henc hens hend
  have hraw : rawGapOf ⟨S.docs ++ [O], S.edges ++ [en]⟩ (some i.id) =
      rawGapOf S (some i.id) + ((c : ℚ) + 1) * 10 := by
    unfold rawGapOf
    rw [hc, havg, hint]
    push_cast
    ring
  set raw := rawGapOf S (some i.id) with hrawdef
  have hstep : (0:ℚ) < ((c : ℚ) + 1) * 10 := by positivity
  constructor
  · intro h100
    rw [hgval] at h100
    rw [hgval', hraw]
    have h100le : (100:ℚ) ≤ raw := by
      rcases le_or_lt 100 raw with h | h
      · exact h
      · rw [min_eq_left (le_of_lt h)] at h100
        exact absurd (h100 ▸ h) (lt_irrefl _)
    rw [min_eq_right (by linarith)]
  · intro hne
    rw [hgval] at hne
    rw [hgval, hgval', hraw]
    rcases le_or_lt 100 raw with h | h
    · exact absurd (min_eq_right h) hne
    · rw [min_eq_left (le_of_lt h)]
      exact lt_min (by linarith) h

/-- Witness for C9: starting from a store holding one bare initiative
(gap score 25) and adding one fresh unintended outcome with a causes
edge, the score strictly increases to 35. -/
theorem C9_gap_monotone_witness :
    ((25:ℚ) = 100 → (35:ℚ) = 100) ∧ ((25:ℚ) ≠ 100 → (25:ℚ) < 35) := by
  refine C9_gap_monotone baseStore "i1" scenI1 freshOutcome freshEdge
    rfl rfl rfl ?_ ?_ rfl ?_ ?_ 25 35 ?_ ?_
  · intro d hd
    have hd1 : d = scenI1 := List.mem_singleton.mp hd
    rw [hd1]
    decide
  · intro e he
    simp [baseStore] at he
  · decide
  · decide
  · simp [calculateIntentionRealityGap, rawGapOf, actualOf, intendedOf,
      gapMetricsOf, reachDocsFrom, docWith, baseStore, scenI1,
      walks_two, walks_one, outAdj, keyMem, causesC, measuresC, getDocById,
      Doc.id, optTypeIs, avgMetricGapOf, aqlAvg, hasValueTarget,
      metricGapExpr, numOf, List.filter_cons, List.find?]
    norm_num
  · simp [calculateIntentionRealityGap, rawGapOf, actualOf, intendedOf,
      gapMetricsOf, reachDocsFrom, docWith, baseStore, scenI1, freshOutcome,
      freshEdge, walks_two, walks_one, outAdj, keyMem, causesC, measuresC,
      getDocById, Doc.id, optTypeIs, avgMetricGapOf, aqlAvg, hasValueTarget,
      metricGapExpr, numOf, List.filter_cons, List.find?]
    norm_num

end PMT
